import Mathlib

/-!
Shallow embedding of the timetable-to-calendar core of `src/app.py`
(functions `parse_timetable_csv` and `create_calendar_from_df`), together
with models of the library routines the core calls:
`pd.to_datetime(s).time()`, `datetime.strptime(s, "%H:%M").time()`,
`datetime.weekday()`, and the `ics` serializer.

Conventions:
* A calendar date is an `Int`, the number of days since 1970-01-01
  (which was a Thursday); a Python `datetime` is a date plus a
  minute-of-day component.
* Wall-clock times are `Time` (hour, minute as `Nat`).
* Python exceptions are modelled by `Except String`; the string is the
  exception message (quoting punctuation of the CPython messages is
  elided so that messages stay plain words).
* `pd.NaN` cells and absent optional columns both surface to the code
  as values failing `pd.notna`, so optional row fields are `Option
  String` with `none` for either case.
* `cal.events` in the `ics` library is a set, but every `Event` is
  created with a fresh unique `uid`, so adding n events (even ones with
  equal visible fields) keeps all n; the calendar is therefore modelled
  as a `List Event` in row order.
-/

/-- Wall-clock time of day: the result of a Python `.time()` call,
restricted to hour and minute (the code never produces seconds). -/
structure Time where
  hour : Nat
  minute : Nat
deriving DecidableEq, Repr

/-- Minutes after midnight of a wall-clock time. -/
def Time.toMinutes (t : Time) : Int := t.hour * 60 + t.minute

/-- A Python `datetime`: days since epoch 1970-01-01 plus a
minute-of-day component. Only the date part is consumed by the code
under study (`weekday()` and `.date()`), the minute part models the
time of day a caller may attach to the anchor. -/
structure PyDateTime where
  days : Int
  minuteOfDay : Nat
deriving DecidableEq, Repr

/-- Model of Python `datetime.weekday()` (Monday = 0 ... Sunday = 6)
for a date counted in days since 1970-01-01, a Thursday. -/
def py_weekday (days : Int) : Int := (days + 3) % 7

/-- One row of the parsed timetable DataFrame as `create_calendar_from_df`
reads it: the four required cells as raw strings, plus the two optional
cells (`none` models a missing column or a NaN cell, i.e. `pd.notna`
false). -/
structure Row where
  day : String
  start : String
  end_ : String
  subject : String
  location : Option String
  notes : Option String
deriving DecidableEq, Repr

/-- A reminder alarm: `trigger` is the relative offset in minutes of the
firing instant from the event start (negative = before), as in
`timedelta(minutes=-alarm_minutes)`; `display_text` is the display
message. -/
structure Alarm where
  trigger : Int
  display_text : String
deriving DecidableEq, Repr

/-- A calendar event as built by `create_calendar_from_df`. `beginDate`
and `endDate` are both `event_date.date()`; times are the parsed
wall-clock values. -/
structure Event where
  name : String
  location : Option String
  description : Option String
  beginDate : Int
  beginTime : Time
  endDate : Int
  endTime : Time
  alarms : List Alarm
deriving DecidableEq, Repr

/-- Model of Python `str.strip()`: drop leading and trailing
whitespace characters. -/
def py_strip (s : String) : String :=
  ⟨((s.data.dropWhile Char.isWhitespace).reverse.dropWhile Char.isWhitespace).reverse⟩

/-- Model of Python `str.lower()` for the ASCII texts handled here. -/
def py_lower (s : String) : String := ⟨s.data.map Char.toLower⟩

/-- The `.strip().lower()` normalization applied to day cells and
column names. -/
def strip_lower (s : String) : String := py_lower (py_strip s)

/-- The `weekday_map` dict of `create_calendar_from_df`. -/
def weekday_map (day : String) : Option Nat :=
  if day = "monday" then some 0
  else if day = "tuesday" then some 1
  else if day = "wednesday" then some 2
  else if day = "thursday" then some 3
  else if day = "friday" then some 4
  else if day = "saturday" then some 5
  else if day = "sunday" then some 6
  else none

/-- Consume a maximal nonempty run of leading decimal digits,
returning the value and the rest (helper for the parser models). -/
def takeNatAux : List Char → Nat → Nat × List Char
  | [], acc => (acc, [])
  | c :: rest, acc =>
    if c.isDigit then takeNatAux rest (acc * 10 + (c.toNat - 48)) else (acc, c :: rest)

/-- Leading digit run of a character list, if nonempty. -/
def takeNat (cs : List Char) : Option (Nat × List Char) :=
  match cs with
  | c :: rest => if c.isDigit then some (takeNatAux rest (c.toNat - 48)) else none
  | [] => none

/-- Consume one or two leading digits greedily (the field width of a
strptime `%H` or `%M` directive). -/
def takeNat2 (cs : List Char) : Option (Nat × List Char) :=
  match cs with
  | c1 :: c2 :: rest =>
    if c1.isDigit then
      if c2.isDigit then some ((c1.toNat - 48) * 10 + (c2.toNat - 48), rest)
      else some (c1.toNat - 48, c2 :: rest)
    else none
  | [c1] => if c1.isDigit then some (c1.toNat - 48, []) else none
  | [] => none

/-- Recognize an optional-space AM/PM suffix (case-insensitive);
returns `true` for PM. -/
def am_pm_suffix (cs : List Char) : Option Bool :=
  let cs := match cs with
    | ' ' :: rest => rest
    | _ => cs
  let up := cs.map Char.toUpper
  if up = ['A', 'M'] then some false
  else if up = ['P', 'M'] then some true
  else none

/-- Interpret an `h:m` clock reading followed by `suffix`: an empty
suffix is a 24-hour reading, an AM/PM suffix a 12-hour one. -/
def clock_of (h m : Nat) (suffix : List Char) : Option Time :=
  match suffix with
  | [] => if h ≤ 23 ∧ m ≤ 59 then some ⟨h, m⟩ else none
  | _ =>
    match am_pm_suffix suffix with
    | some pm =>
      if 1 ≤ h ∧ h ≤ 12 ∧ m ≤ 59 then
        some ⟨if pm then h % 12 + 12 else h % 12, m⟩
      else none
    | none => none

/-- Result of `pd.to_datetime` on a string: a timestamp with an
optional explicit calendar date (year, month, day) and a wall-clock
time. `date = none` models a time-only input, for which pandas fills
in the current date; its value is irrelevant here because the code
only ever calls `.time()` on the result. -/
structure Timestamp where
  date : Option (Nat × Nat × Nat)
  time : Time
deriving DecidableEq, Repr

/-- Model of `pd.to_datetime(s)` restricted to the textual shapes this
application can meet: 24-hour `H:MM`/`HH:MM`, 12-hour `H:MM` with an
`AM`/`PM` suffix (optionally after one space, any letter case), ISO
dates `YYYY-MM-DD` (time component midnight), and `YYYY-MM-DD HH:MM`.
Surrounding whitespace is ignored, month is checked to 1..12 and day
to 1..31 (a coarse bound standing in for full calendar validation);
every other string raises, modelled as `none`. -/
def to_datetime (s : String) : Option Timestamp :=
  match takeNat (py_strip s).data with
  | none => none
  | some (n1, rest) =>
    match rest with
    | ':' :: rest1 =>
      (match takeNat rest1 with
       | some (m, rest2) => (clock_of n1 m rest2).map (fun t => ⟨none, t⟩)
       | none => none)
    | '-' :: rest1 =>
      (match takeNat rest1 with
       | some (mo, '-' :: rest2) =>
         (match takeNat rest2 with
          | some (d, rest3) =>
            if 1 ≤ mo ∧ mo ≤ 12 ∧ 1 ≤ d ∧ d ≤ 31 then
              match rest3 with
              | [] => some ⟨some (n1, mo, d), ⟨0, 0⟩⟩
              | ' ' :: rest4 =>
                (match takeNat rest4 with
                 | some (h, ':' :: rest5) =>
                   (match takeNat rest5 with
                    | some (mi, []) =>
                      if h ≤ 23 ∧ mi ≤ 59 then some ⟨some (n1, mo, d), ⟨h, mi⟩⟩ else none
                    | _ => none)
                 | _ => none)
              | _ => none
            else none
          | _ => none)
       | _ => none)
    | _ => none

/-- The `pd.to_datetime(str(x)).time()` expression of the code. -/
def to_datetime_time (s : String) : Option Time :=
  (to_datetime s).map Timestamp.time

/-- Message of the strptime ValueError raised when the format does not
match at all (quoting punctuation elided). -/
def no_match_msg (s : String) : String :=
  "time data " ++ s ++ " does not match format %H:%M"

/-- Model of `datetime.strptime(s, "%H:%M").time()`: `%H` and `%M`
each consume one or two digits greedily, the hour must be at most 23
and the minute at most 59, and leftover text raises the
unconverted-data ValueError. -/
def strptime_HM (s : String) : Except String Time :=
  match takeNat2 s.toList with
  | some (h, ':' :: rest) =>
    (match takeNat2 rest with
     | some (m, rest2) =>
       if h ≤ 23 ∧ m ≤ 59 then
         match rest2 with
         | [] => .ok ⟨h, m⟩
         | _ => .error ("unconverted data remains: " ++ String.mk rest2)
       else .error (no_match_msg s)
     | none => .error (no_match_msg s))
  | _ => .error (no_match_msg s)

/-- The try/except block of `create_calendar_from_df` that parses the
start and end cells of one row: first the flexible parse of both, and
if either raises, a strict `%H:%M` reparse of both from the top. -/
def row_times (start end_ : String) : Except String (Time × Time) :=
  match to_datetime_time start, to_datetime_time end_ with
  | some s, some e => .ok (s, e)
  | _, _ =>
    match strptime_HM start with
    | .error msg => .error msg
    | .ok s =>
      match strptime_HM end_ with
      | .error msg => .error msg
      | .ok e => .ok (s, e)

/-- The Monday of the week of `anchor`:
`start_week_date - timedelta(days=start_week_date.weekday())`,
projected to its date because the code only ever uses
`event_date.date()` afterwards. -/
def mondayOf (anchor : PyDateTime) : Int := anchor.days - py_weekday anchor.days

/-- One iteration of the row loop of `create_calendar_from_df`:
`.ok none` is the `continue` for an unrecognized weekday, `.error`
the propagated time-format exception, `.ok (some ev)` the built
event. -/
def event_of_row (monday : Int) (alarm_minutes : Nat) (row : Row) : Except String (Option Event) :=
  let day := strip_lower row.day
  match weekday_map day with
  | none => .ok none
  | some idx =>
    match row_times row.start row.end_ with
    | .error msg => .error msg
    | .ok (start_time, end_time) =>
      let event_date := monday + (idx : Int)
      .ok (some
        { name := row.subject
          location := row.location
          description := row.notes
          beginDate := event_date
          beginTime := start_time
          endDate := event_date
          endTime := end_time
          alarms := [{ trigger := -(alarm_minutes : Int),
                       display_text := "Reminder: " ++ row.subject }] })

/-- The row loop of `create_calendar_from_df`, accumulating events in
row order; an exception aborts the whole loop with nothing returned. -/
def build_events (monday : Int) (alarm_minutes : Nat) : List Row → Except String (List Event)
  | [] => .ok []
  | row :: rest =>
    match event_of_row monday alarm_minutes row with
    | .error msg => .error msg
    | .ok none => build_events monday alarm_minutes rest
    | .ok (some ev) =>
      match build_events monday alarm_minutes rest with
      | .error msg => .error msg
      | .ok evs => .ok (ev :: evs)

/-- `create_calendar_from_df` of `src/app.py`: the full event list of
the produced calendar, or the message of the raised exception. The
Monday subtraction is hoisted out of the loop (the loop recomputes the
same value each iteration). -/
def create_calendar_from_df (df : List Row) (start_week_date : PyDateTime)
    (alarm_minutes : Nat) : Except String (List Event) :=
  build_events (mondayOf start_week_date) alarm_minutes df

/-- The required-column list of `parse_timetable_csv`. -/
def required_columns : List String := ["day", "start", "end", "subject"]

/-- Header-shape hint appended to the missing-column message. -/
def schema_hint : String := " (example CSV header: Day, Start, End, Subject, Location)"

/-- `parse_timetable_csv` of `src/app.py`, restricted to the header
(the only part it validates): strip_lower each column name by trimming
and lowercasing, then raise on the first required column not present. -/
def parse_timetable_csv (columns : List String) : Except String (List String) :=
  let cols := columns.map strip_lower
  match required_columns.find? (fun col => !(decide (col ∈ cols))) with
  | some col => .error ("Missing required column: " ++ col ++ schema_hint)
  | none => .ok cols

/-- One content line of the serialized calendar, split at the first
colon of the iCalendar `KEY:value` wire shape. -/
structure ICSLine where
  key : String
  value : String
deriving DecidableEq, Repr

/-- Date-time rendering of the `ics` serializer, abstracted to the
epoch-day index and the clock reading (no claim depends on the exact
digit grouping of the real `YYYYMMDDTHHMMSS` text). -/
def dt_string (d : Int) (t : Time) : String :=
  toString d ++ "T" ++ toString t.hour ++ ":" ++ toString t.minute

/-- Serialized trigger of a relative alarm offset, `-PT{n}M` for n
minutes before the start. -/
def trigger_string (t : Int) : String :=
  if t < 0 then "-PT" ++ toString (-t) ++ "M" else "PT" ++ toString t ++ "M"

/-- VALARM block emitted by the `ics` serializer for a display alarm. -/
def serialize_alarm (a : Alarm) : List ICSLine :=
  [⟨"BEGIN", "VALARM"⟩, ⟨"ACTION", "DISPLAY"⟩,
   ⟨"DESCRIPTION", a.display_text⟩,
   ⟨"TRIGGER", trigger_string a.trigger⟩, ⟨"END", "VALARM"⟩]

/-- VEVENT block emitted by the `ics` serializer for one event:
LOCATION and DESCRIPTION lines appear only when the fields are set. -/
def serialize_event (ev : Event) : List ICSLine :=
  [⟨"BEGIN", "VEVENT"⟩,
   ⟨"DTSTART", dt_string ev.beginDate ev.beginTime⟩,
   ⟨"DTEND", dt_string ev.endDate ev.endTime⟩,
   ⟨"SUMMARY", ev.name⟩]
  ++ (match ev.location with
      | some l => [⟨"LOCATION", l⟩]
      | none => [])
  ++ (match ev.description with
      | some d => [⟨"DESCRIPTION", d⟩]
      | none => [])
  ++ (ev.alarms.map serialize_alarm).flatten
  ++ [⟨"END", "VEVENT"⟩]

/-- `cal.serialize()` of the code, as the list of content lines. -/
def serialize (cal : List Event) : List ICSLine :=
  [⟨"BEGIN", "VCALENDAR"⟩, ⟨"VERSION", "2.0"⟩]
  ++ (cal.map serialize_event).flatten
  ++ [⟨"END", "VCALENDAR"⟩]

/-- Absolute start instant of an event, in minutes since the epoch
midnight. -/
def event_start_minutes (ev : Event) : Int :=
  ev.beginDate * 1440 + ev.beginTime.toMinutes

/-- Instant at which an attached alarm fires, in minutes since the
epoch midnight: start plus the relative trigger. -/
def alarm_fire_minutes (ev : Event) (a : Alarm) : Int :=
  event_start_minutes ev + a.trigger

/-- A row whose day cell normalizes to a recognized weekday. -/
def is_valid_day (row : Row) : Bool :=
  (weekday_map (strip_lower row.day)).isSome

/-- Two epoch-day dates fall within the same Monday-to-Sunday week.
Day 0 (1970-01-01) is a Thursday, so the Monday-aligned week blocks
are the blocks of seven consecutive values of `d + 3`. -/
def same_week (d1 d2 : Int) : Prop := (d1 + 3) / 7 = (d2 + 3) / 7

/-- A serialized line opening a VEVENT block. -/
def is_begin_vevent (l : ICSLine) : Bool :=
  l.key == "BEGIN" && l.value == "VEVENT"

example : to_datetime_time "09:00" = some ⟨9, 0⟩ := by rfl
example : to_datetime_time "9:00AM" = some ⟨9, 0⟩ := by rfl
example : to_datetime_time "2:30PM" = some ⟨14, 30⟩ := by rfl
example : to_datetime_time "25:99" = none := by rfl
example : to_datetime "2024-01-15" = some ⟨some (2024, 1, 15), ⟨0, 0⟩⟩ := by rfl
example : strptime_HM "09:00" = .ok ⟨9, 0⟩ := by rfl
example : strptime_HM "25:99" = .error (no_match_msg "25:99") := by rfl
example : strptime_HM "2:30PM" = .error "unconverted data remains: PM" := by rfl

/-! ## Helper lemmas about the embedded operations -/

lemma weekday_map_le_six {day : String} {idx : Nat}
    (h : weekday_map day = some idx) : idx ≤ 6 := by
  unfold weekday_map at h
  split_ifs at h <;> simp_all <;> omega

lemma event_of_row_skip {row : Row} (monday : Int) (m : Nat)
    (h : weekday_map (strip_lower row.day) = none) :
    event_of_row monday m row = .ok none := by
  simp [event_of_row, h]

lemma event_of_row_build {row : Row} {idx : Nat} {s e : Time} (monday : Int) (m : Nat)
    (hd : weekday_map (strip_lower row.day) = some idx)
    (ht : row_times row.start row.end_ = .ok (s, e)) :
    event_of_row monday m row = .ok (some
      { name := row.subject
        location := row.location
        description := row.notes
        beginDate := monday + (idx : Int)
        beginTime := s
        endDate := monday + (idx : Int)
        endTime := e
        alarms := [{ trigger := -(m : Int),
                     display_text := "Reminder: " ++ row.subject }] }) := by
  simp [event_of_row, hd, ht]

lemma event_of_row_inv {monday : Int} {m : Nat} {row : Row} {ev : Event}
    (h : event_of_row monday m row = .ok (some ev)) :
    ∃ idx s e, weekday_map (strip_lower row.day) = some idx ∧
      row_times row.start row.end_ = .ok (s, e) ∧
      ev = { name := row.subject
             location := row.location
             description := row.notes
             beginDate := monday + (idx : Int)
             beginTime := s
             endDate := monday + (idx : Int)
             endTime := e
             alarms := [{ trigger := -(m : Int),
                          display_text := "Reminder: " ++ row.subject }] } := by
  simp only [event_of_row] at h
  cases hd : weekday_map (strip_lower row.day) with
  | none => rw [hd] at h; simp at h
  | some idx =>
    rw [hd] at h
    cases ht : row_times row.start row.end_ with
    | error msg => rw [ht] at h; simp at h
    | ok p =>
      obtain ⟨s, e⟩ := p
      rw [ht] at h
      simp at h
      exact ⟨idx, s, e, rfl, rfl, h.symm⟩

lemma build_events_mem {monday : Int} {m : Nat} {rows : List Row} {evs : List Event}
    (h : build_events monday m rows = .ok evs) :
    ∀ ev ∈ evs, ∃ row ∈ rows, event_of_row monday m row = .ok (some ev) := by
  induction rows generalizing evs with
  | nil =>
    simp only [build_events] at h
    cases h
    simp
  | cons row rest ih =>
    intro ev hev
    simp only [build_events] at h
    cases hr : event_of_row monday m row with
    | error msg => rw [hr] at h; cases h
    | ok o =>
      rw [hr] at h
      cases o with
      | none =>
        obtain ⟨r, hrmem, hre⟩ := ih h ev hev
        exact ⟨r, List.mem_cons_of_mem _ hrmem, hre⟩
      | some ev1 =>
        cases hrest : build_events monday m rest with
        | error msg => rw [hrest] at h; cases h
        | ok evs1 =>
          rw [hrest] at h
          cases h
          rcases List.mem_cons.mp hev with rfl | hev1
          · exact ⟨row, List.mem_cons_self _ _, hr⟩
          · obtain ⟨r, hrmem, hre⟩ := ih hrest ev hev1
            exact ⟨r, List.mem_cons_of_mem _ hrmem, hre⟩

lemma build_events_drop_unrecognized {row : Row}
    (h : weekday_map (strip_lower row.day) = none)
    (monday : Int) (m : Nat) (pre post : List Row) :
    build_events monday m (pre ++ row :: post) = build_events monday m (pre ++ post) := by
  induction pre with
  | nil => simp [build_events, event_of_row_skip _ _ h]
  | cons p pre ih =>
    cases hp : event_of_row monday m p with
    | error msg => simp [build_events, hp]
    | ok o => cases o <;> simp [build_events, hp, ih]

lemma build_events_total {monday : Int} {m : Nat} {rows : List Row}
    (h : ∀ row ∈ rows, is_valid_day row = true →
      (row_times row.start row.end_).isOk = true) :
    ∃ evs, build_events monday m rows = .ok evs ∧
      List.Forall₂ (fun row ev => event_of_row monday m row = .ok (some ev))
        (rows.filter is_valid_day) evs := by
  induction rows with
  | nil => exact ⟨[], rfl, by simp⟩
  | cons row rest ih =>
    obtain ⟨evs, hevs, hfa⟩ := ih (fun r hr => h r (List.mem_cons_of_mem _ hr))
    cases hv : is_valid_day row with
    | false =>
      have hnone : weekday_map (strip_lower row.day) = none := by
        unfold is_valid_day at hv
        cases hw : weekday_map (strip_lower row.day) with
        | none => rfl
        | some i => rw [hw] at hv; simp at hv
      refine ⟨evs, ?_, ?_⟩
      · simp [build_events, event_of_row_skip _ _ hnone, hevs]
      · simpa [List.filter_cons, hv] using hfa
    | true =>
      have hok := h row (List.mem_cons_self _ _) hv
      cases ht : row_times row.start row.end_ with
      | error msg => rw [ht] at hok; simp [Except.isOk, Except.toBool] at hok
      | ok p =>
        obtain ⟨s, e⟩ := p
        have hidx : ∃ idx, weekday_map (strip_lower row.day) = some idx := by
          unfold is_valid_day at hv
          cases hw : weekday_map (strip_lower row.day) with
          | none => rw [hw] at hv; simp at hv
          | some i => exact ⟨i, rfl⟩
        obtain ⟨idx, hidx⟩ := hidx
        refine ⟨{ name := row.subject
                  location := row.location
                  description := row.notes
                  beginDate := monday + (idx : Int)
                  beginTime := s
                  endDate := monday + (idx : Int)
                  endTime := e
                  alarms := [{ trigger := -(m : Int),
                               display_text := "Reminder: " ++ row.subject }] } :: evs, ?_, ?_⟩
        · simp [build_events, event_of_row_build _ _ hidx ht, hevs]
        · have hfc : List.filter is_valid_day (row :: rest)
              = row :: List.filter is_valid_day rest := by
            simp [List.filter_cons, hv]
          rw [hfc]
          exact List.Forall₂.cons (event_of_row_build _ _ hidx ht) hfa

lemma serialize_alarm_no_rrule {a : Alarm} {l : ICSLine}
    (h : l ∈ serialize_alarm a) : l.key ≠ "RRULE" := by
  simp only [serialize_alarm, List.mem_cons, List.not_mem_nil, or_false] at h
  rcases h with rfl | rfl | rfl | rfl | rfl <;> simp

lemma serialize_event_no_rrule {ev : Event} {l : ICSLine}
    (h : l ∈ serialize_event ev) : l.key ≠ "RRULE" := by
  unfold serialize_event at h
  rcases List.mem_append.mp h with hrest | hend
  swap
  · simp only [List.mem_cons, List.not_mem_nil, or_false] at hend
    subst hend; simp
  rcases List.mem_append.mp hrest with hrest2 | halarm
  swap
  · simp only [List.mem_flatten, List.mem_map] at halarm
    obtain ⟨ls, ⟨a, _, rfl⟩, hmem⟩ := halarm
    exact serialize_alarm_no_rrule hmem
  rcases List.mem_append.mp hrest2 with hrest3 | hdesc
  swap
  · cases hc : ev.description with
    | none => rw [hc] at hdesc; simp at hdesc
    | some v => rw [hc] at hdesc; simp at hdesc; subst hdesc; simp
  rcases List.mem_append.mp hrest3 with hfix | hloc
  · simp only [List.mem_cons, List.not_mem_nil, or_false] at hfix
    rcases hfix with rfl | rfl | rfl | rfl <;> simp
  · cases hc : ev.location with
    | none => rw [hc] at hloc; simp at hloc
    | some v => rw [hc] at hloc; simp at hloc; subst hloc; simp

lemma serialize_no_rrule {evs : List Event} {l : ICSLine}
    (h : l ∈ serialize evs) : l.key ≠ "RRULE" := by
  unfold serialize at h
  rcases List.mem_append.mp h with hrest | hend
  swap
  · simp only [List.mem_cons, List.not_mem_nil, or_false] at hend
    subst hend; simp
  rcases List.mem_append.mp hrest with hfix | hmain
  · simp only [List.mem_cons, List.not_mem_nil, or_false] at hfix
    rcases hfix with rfl | rfl <;> simp
  · simp only [List.mem_flatten, List.mem_map] at hmain
    obtain ⟨ls, ⟨ev, _, rfl⟩, hmem⟩ := hmain
    exact serialize_event_no_rrule hmem

lemma countP_serialize_alarm (a : Alarm) :
    (serialize_alarm a).countP is_begin_vevent = 0 := by
  simp [serialize_alarm, is_begin_vevent, List.countP_cons]

lemma countP_serialize_event (ev : Event) :
    (serialize_event ev).countP is_begin_vevent = 1 := by
  have halarms : ((ev.alarms.map serialize_alarm).flatten).countP is_begin_vevent = 0 := by
    induction ev.alarms with
    | nil => simp
    | cons a rest ih => simp [List.countP_append, countP_serialize_alarm, ih]
  cases hl : ev.location <;> cases hd : ev.description <;>
    simp [serialize_event, hl, hd, List.countP_append, List.countP_cons,
      is_begin_vevent, halarms]

lemma countP_serialize (evs : List Event) :
    (serialize evs).countP is_begin_vevent = evs.length := by
  have hmain : ((evs.map serialize_event).flatten).countP is_begin_vevent = evs.length := by
    induction evs with
    | nil => simp
    | cons ev rest ih =>
      simp [List.countP_append, countP_serialize_event, ih]
      omega
  simp [serialize, List.countP_append, List.countP_cons, is_begin_vevent, hmain]

/-! ## Claim theorems -/

/-- C1: for every anchor supplied to the Calendar Builder, the computed
week start `mondayOf anchor` is literally the anchor minus its
zero-based weekday offset, it is a Monday on or before the anchor at a
distance of at most six days, and a row with a recognized weekday
yields an event dated week start plus the weekday index of the day
(Monday = 0 ... Sunday = 6). -/
theorem week_start_monday_and_event_date (anchor : PyDateTime) (row : Row)
    (m idx : Nat) (s e : Time)
    (hd : weekday_map (strip_lower row.day) = some idx)
    (ht : row_times row.start row.end_ = .ok (s, e)) :
    mondayOf anchor = anchor.days - py_weekday anchor.days ∧
    py_weekday (mondayOf anchor) = 0 ∧
    mondayOf anchor ≤ anchor.days ∧
    anchor.days - mondayOf anchor ≤ 6 ∧
    create_calendar_from_df [row] anchor m = .ok
      [{ name := row.subject
         location := row.location
         description := row.notes
         beginDate := mondayOf anchor + (idx : Int)
         beginTime := s
         endDate := mondayOf anchor + (idx : Int)
         endTime := e
         alarms := [{ trigger := -(m : Int),
                      display_text := "Reminder: " ++ row.subject }] }] := by
  refine ⟨rfl, ?_, ?_, ?_, ?_⟩
  · unfold mondayOf py_weekday; omega
  · unfold mondayOf py_weekday; omega
  · unfold mondayOf py_weekday; omega
  · simp [create_calendar_from_df, build_events, event_of_row_build _ _ hd ht]

/-- Witness for C1 at a concrete Sunday anchor and a Monday row. -/
theorem week_start_monday_and_event_date_witness :
    mondayOf ⟨3, 690⟩ = (3 : Int) - py_weekday 3 ∧
    py_weekday (mondayOf ⟨3, 690⟩) = 0 ∧
    mondayOf ⟨3, 690⟩ ≤ (3 : Int) ∧
    (3 : Int) - mondayOf ⟨3, 690⟩ ≤ 6 ∧
    create_calendar_from_df [⟨"Monday", "09:00", "10:30", "Algorithms", none, none⟩]
        ⟨3, 690⟩ 30 = .ok
      [{ name := "Algorithms"
         location := none
         description := none
         beginDate := mondayOf ⟨3, 690⟩ + ((0 : Nat) : Int)
         beginTime := ⟨9, 0⟩
         endDate := mondayOf ⟨3, 690⟩ + ((0 : Nat) : Int)
         endTime := ⟨10, 30⟩
         alarms := [{ trigger := -((30 : Nat) : Int),
                      display_text := "Reminder: " ++ "Algorithms" }] }] :=
  week_start_monday_and_event_date ⟨3, 690⟩
    ⟨"Monday", "09:00", "10:30", "Algorithms", none, none⟩ 30 0 ⟨9, 0⟩ ⟨10, 30⟩
    (by rfl) (by rfl)

/-- C5: a row whose normalized day is not one of the seven recognized
weekday names is silently skipped: building with the row inserted
anywhere gives exactly the result of building without it, so no event
and no error comes from the row and the remaining rows are still
processed. -/
theorem unrecognized_day_skipped (pre post : List Row) (row : Row)
    (anchor : PyDateTime) (m : Nat)
    (h : weekday_map (strip_lower row.day) = none) :
    create_calendar_from_df (pre ++ row :: post) anchor m
      = create_calendar_from_df (pre ++ post) anchor m := by
  unfold create_calendar_from_df
  exact build_events_drop_unrecognized h _ _ _ _

/-- Witness for C5: a row with day Funday between two real rows. -/
theorem unrecognized_day_skipped_witness :
    create_calendar_from_df
        [⟨"Monday", "09:00", "10:30", "Algorithms", none, none⟩,
         ⟨"Funday", "09:00", "10:30", "Party", none, none⟩,
         ⟨"friday", "13:00", "14:00", "Databases", none, none⟩] ⟨0, 0⟩ 30
      = create_calendar_from_df
        [⟨"Monday", "09:00", "10:30", "Algorithms", none, none⟩,
         ⟨"friday", "13:00", "14:00", "Databases", none, none⟩] ⟨0, 0⟩ 30 :=
  unrecognized_day_skipped
    [⟨"Monday", "09:00", "10:30", "Algorithms", none, none⟩]
    [⟨"friday", "13:00", "14:00", "Databases", none, none⟩]
    ⟨"Funday", "09:00", "10:30", "Party", none, none⟩ ⟨0, 0⟩ 30 (by rfl)

/-- C7: the anchor only selects the target week Monday: two anchors in
the same Monday-to-Sunday week, in particular the same calendar date at
different times of day, produce identical calendars (same events,
dates, times, titles and alarms). -/
theorem anchor_only_selects_week (df : List Row) (a1 a2 : PyDateTime) (m : Nat)
    (h : same_week a1.days a2.days) :
    create_calendar_from_df df a1 m = create_calendar_from_df df a2 m := by
  have hm : mondayOf a1 = mondayOf a2 := by
    unfold same_week at h
    unfold mondayOf py_weekday
    omega
  unfold create_calendar_from_df
  rw [hm]

/-- Witness for C7: a Monday morning anchor and the following Sunday
evening anchor give the same calendar. -/
theorem anchor_only_selects_week_witness :
    create_calendar_from_df
        [⟨"Wednesday", "2:30PM", "4:00PM", "Databases", some "Lab 2", none⟩]
        ⟨4, 540⟩ 15
      = create_calendar_from_df
        [⟨"Wednesday", "2:30PM", "4:00PM", "Databases", some "Lab 2", none⟩]
        ⟨10, 1410⟩ 15 :=
  anchor_only_selects_week
    [⟨"Wednesday", "2:30PM", "4:00PM", "Databases", some "Lab 2", none⟩]
    ⟨4, 540⟩ ⟨10, 1410⟩ 15 (by unfold same_week; decide)

/-- C6: every event of a successful build carries exactly one reminder
alarm, its display text references the event title, and it fires
exactly `alarm_minutes` minutes before the event start instant. -/
theorem single_alarm_fires_before_start (df : List Row) (anchor : PyDateTime)
    (m : Nat) (evs : List Event) (ev : Event)
    (h : create_calendar_from_df df anchor m = .ok evs) (hev : ev ∈ evs) :
    ev.alarms = [{ trigger := -(m : Int),
                   display_text := "Reminder: " ++ ev.name }] ∧
    alarm_fire_minutes ev { trigger := -(m : Int),
                            display_text := "Reminder: " ++ ev.name }
      = event_start_minutes ev - m := by
  obtain ⟨row, hrow, hre⟩ := build_events_mem h ev hev
  obtain ⟨idx, s, e, hd, ht, rfl⟩ := event_of_row_inv hre
  refine ⟨rfl, ?_⟩
  simp [alarm_fire_minutes]
  omega

/-- Witness for C6 on a concrete one-row build with a 30 minute
offset. -/
theorem single_alarm_fires_before_start_witness :
    ({ name := "Algorithms"
       location := none
       description := none
       beginDate := -3
       beginTime := ⟨9, 0⟩
       endDate := -3
       endTime := ⟨10, 30⟩
       alarms := [{ trigger := -30, display_text := "Reminder: Algorithms" }] } : Event).alarms
      = [{ trigger := -((30 : Nat) : Int), display_text := "Reminder: Algorithms" }] ∧
    alarm_fire_minutes
      { name := "Algorithms"
        location := none
        description := none
        beginDate := -3
        beginTime := ⟨9, 0⟩
        endDate := -3
        endTime := ⟨10, 30⟩
        alarms := [{ trigger := -30, display_text := "Reminder: Algorithms" }] }
      { trigger := -((30 : Nat) : Int), display_text := "Reminder: Algorithms" }
      = event_start_minutes
        { name := "Algorithms"
          location := none
          description := none
          beginDate := -3
          beginTime := ⟨9, 0⟩
          endDate := -3
          endTime := ⟨10, 30⟩
          alarms := [{ trigger := -30, display_text := "Reminder: Algorithms" }] } - 30 :=
  single_alarm_fires_before_start
    [⟨"Monday", "09:00", "10:30", "Algorithms", none, none⟩] ⟨0, 0⟩ 30
    [{ name := "Algorithms"
       location := none
       description := none
       beginDate := -3
       beginTime := ⟨9, 0⟩
       endDate := -3
       endTime := ⟨10, 30⟩
       alarms := [{ trigger := -30, display_text := "Reminder: Algorithms" }] }]
    { name := "Algorithms"
      location := none
      description := none
      beginDate := -3
      beginTime := ⟨9, 0⟩
      endDate := -3
      endTime := ⟨10, 30⟩
      alarms := [{ trigger := -30, display_text := "Reminder: Algorithms" }] }
    (by rfl) (by simp)

/-- C2: when every recognized-day row has parseable times, the build
succeeds with exactly one event per such row (duplicate rows counted
separately), the events pair off with the recognized rows in order,
each titled by its row subject and dated inside the single target
week; the serialized output opens exactly that many VEVENT blocks and
contains no recurrence-rule line. -/
theorem one_event_per_valid_row (rows : List Row) (anchor : PyDateTime) (m : Nat)
    (h : ∀ row ∈ rows, is_valid_day row = true →
      (row_times row.start row.end_).isOk = true) :
    ∃ evs, create_calendar_from_df rows anchor m = .ok evs ∧
      evs.length = (rows.filter is_valid_day).length ∧
      List.Forall₂ (fun (row : Row) (ev : Event) => ev.name = row.subject ∧
          mondayOf anchor ≤ ev.beginDate ∧ ev.beginDate ≤ mondayOf anchor + 6)
        (rows.filter is_valid_day) evs ∧
      (serialize evs).countP is_begin_vevent = (rows.filter is_valid_day).length ∧
      ∀ l ∈ serialize evs, l.key ≠ "RRULE" := by
  obtain ⟨evs, hevs, hfa⟩ := @build_events_total (mondayOf anchor) m rows h
  refine ⟨evs, hevs, hfa.length_eq.symm, ?_, ?_, fun l hl => serialize_no_rrule hl⟩
  · refine hfa.imp ?_
    intro row ev hre
    obtain ⟨idx, s, e, hd, ht, rfl⟩ := event_of_row_inv hre
    have hle := weekday_map_le_six hd
    refine ⟨rfl, ?_, ?_⟩
    · show mondayOf anchor ≤ mondayOf anchor + (idx : Int)
      omega
    · show mondayOf anchor + (idx : Int) ≤ mondayOf anchor + 6
      omega
  · rw [countP_serialize]
    exact hfa.length_eq.symm

/-- Witness for C2: two identical Monday rows plus one unrecognized
row yield exactly two events. -/
theorem one_event_per_valid_row_witness :
    ∃ evs, create_calendar_from_df
        [⟨"Monday", "09:00", "10:30", "Algorithms", none, none⟩,
         ⟨"Someday", "09:00", "10:30", "Nothing", none, none⟩,
         ⟨"Monday", "09:00", "10:30", "Algorithms", none, none⟩] ⟨0, 0⟩ 30 = .ok evs ∧
      evs.length = (List.filter is_valid_day
        [⟨"Monday", "09:00", "10:30", "Algorithms", none, none⟩,
         ⟨"Someday", "09:00", "10:30", "Nothing", none, none⟩,
         ⟨"Monday", "09:00", "10:30", "Algorithms", none, none⟩]).length ∧
      List.Forall₂ (fun (row : Row) (ev : Event) => ev.name = row.subject ∧
          mondayOf ⟨0, 0⟩ ≤ ev.beginDate ∧ ev.beginDate ≤ mondayOf ⟨0, 0⟩ + 6)
        (List.filter is_valid_day
          [⟨"Monday", "09:00", "10:30", "Algorithms", none, none⟩,
           ⟨"Someday", "09:00", "10:30", "Nothing", none, none⟩,
           ⟨"Monday", "09:00", "10:30", "Algorithms", none, none⟩]) evs ∧
      (serialize evs).countP is_begin_vevent = (List.filter is_valid_day
        [⟨"Monday", "09:00", "10:30", "Algorithms", none, none⟩,
         ⟨"Someday", "09:00", "10:30", "Nothing", none, none⟩,
         ⟨"Monday", "09:00", "10:30", "Algorithms", none, none⟩]).length ∧
      ∀ l ∈ serialize evs, l.key ≠ "RRULE" :=
  one_event_per_valid_row
    [⟨"Monday", "09:00", "10:30", "Algorithms", none, none⟩,
     ⟨"Someday", "09:00", "10:30", "Nothing", none, none⟩,
     ⟨"Monday", "09:00", "10:30", "Algorithms", none, none⟩] ⟨0, 0⟩ 30 (by decide)

/-- C9: no end-after-start validation is performed: a recognized row
whose parsed end time is strictly earlier than its start time still
yields its event, carrying both times exactly as given. -/
theorem end_before_start_accepted (row : Row) (anchor : PyDateTime)
    (m idx : Nat) (s e : Time)
    (hd : weekday_map (strip_lower row.day) = some idx)
    (ht : row_times row.start row.end_ = .ok (s, e))
    (hlt : e.toMinutes < s.toMinutes) :
    create_calendar_from_df [row] anchor m = .ok
      [{ name := row.subject
         location := row.location
         description := row.notes
         beginDate := mondayOf anchor + (idx : Int)
         beginTime := s
         endDate := mondayOf anchor + (idx : Int)
         endTime := e
         alarms := [{ trigger := -(m : Int),
                      display_text := "Reminder: " ++ row.subject }] }] := by
  simp [create_calendar_from_df, build_events, event_of_row_build _ _ hd ht]

/-- Witness for C9: a Tuesday row running from 10:00 back to 09:00. -/
theorem end_before_start_accepted_witness :
    create_calendar_from_df [⟨"tuesday", "10:00", "09:00", "Yoga", none, none⟩]
        ⟨0, 0⟩ 30 = .ok
      [{ name := "Yoga"
         location := none
         description := none
         beginDate := mondayOf ⟨0, 0⟩ + ((1 : Nat) : Int)
         beginTime := ⟨10, 0⟩
         endDate := mondayOf ⟨0, 0⟩ + ((1 : Nat) : Int)
         endTime := ⟨9, 0⟩
         alarms := [{ trigger := -((30 : Nat) : Int),
                      display_text := "Reminder: " ++ "Yoga" }] }] :=
  end_before_start_accepted ⟨"tuesday", "10:00", "09:00", "Yoga", none, none⟩
    ⟨0, 0⟩ 30 1 ⟨10, 0⟩ ⟨9, 0⟩ (by rfl) (by rfl) (by decide)

/-- C8: optional values pass through exactly: the produced event has
location and description equal to the row optional values, so an
absent or NaN cell (modelled `none`) leaves the field unset rather
than empty, and the serialized VEVENT block then contains no LOCATION
line and exactly one DESCRIPTION line — the alarm display text inside
the VALARM block, not an event description. -/
theorem optional_fields_pass_through (row : Row) (anchor : PyDateTime)
    (m idx : Nat) (s e : Time)
    (hd : weekday_map (strip_lower row.day) = some idx)
    (ht : row_times row.start row.end_ = .ok (s, e)) :
    ∃ ev, create_calendar_from_df [row] anchor m = .ok [ev] ∧
      ev.location = row.location ∧
      ev.description = row.notes ∧
      (row.location = none →
        (serialize_event ev).countP (fun l => l.key == "LOCATION") = 0) ∧
      (row.location = none → row.notes = none →
        (serialize_event ev).countP (fun l => l.key == "DESCRIPTION") = 1) := by
  refine ⟨{ name := row.subject
            location := row.location
            description := row.notes
            beginDate := mondayOf anchor + (idx : Int)
            beginTime := s
            endDate := mondayOf anchor + (idx : Int)
            endTime := e
            alarms := [{ trigger := -(m : Int),
                         display_text := "Reminder: " ++ row.subject }] }, ?_, rfl, rfl, ?_, ?_⟩
  · simp [create_calendar_from_df, build_events, event_of_row_build _ _ hd ht]
  · intro hloc
    simp [serialize_event, serialize_alarm, hloc, List.countP_append, List.countP_cons]
    cases row.notes <;> simp [List.countP_cons]
  · intro hloc hnotes
    simp [serialize_event, serialize_alarm, hloc, hnotes,
      List.countP_append, List.countP_cons]

/-- Witness for C8: a Wednesday row with blank location and notes. -/
theorem optional_fields_pass_through_witness :
    ∃ ev, create_calendar_from_df
        [⟨"Wednesday", "2:30PM", "4:00PM", "Databases", none, none⟩] ⟨0, 0⟩ 30
        = .ok [ev] ∧
      ev.location = (⟨"Wednesday", "2:30PM", "4:00PM", "Databases", none, none⟩ : Row).location ∧
      ev.description = (⟨"Wednesday", "2:30PM", "4:00PM", "Databases", none, none⟩ : Row).notes ∧
      ((⟨"Wednesday", "2:30PM", "4:00PM", "Databases", none, none⟩ : Row).location = none →
        (serialize_event ev).countP (fun l => l.key == "LOCATION") = 0) ∧
      ((⟨"Wednesday", "2:30PM", "4:00PM", "Databases", none, none⟩ : Row).location = none →
        (⟨"Wednesday", "2:30PM", "4:00PM", "Databases", none, none⟩ : Row).notes = none →
        (serialize_event ev).countP (fun l => l.key == "DESCRIPTION") = 1) :=
  optional_fields_pass_through
    ⟨"Wednesday", "2:30PM", "4:00PM", "Databases", none, none⟩ ⟨0, 0⟩ 30 2
    ⟨14, 30⟩ ⟨16, 0⟩ (by rfl) (by rfl)

/-- C10: a start or end cell the flexible parser reads as a full date
or datetime raises no error; only its time-of-day component (midnight
for a bare date such as 2024-01-15) becomes the event time, combined
with the weekday-derived event date, and the parsed calendar date is
discarded. -/
theorem date_cell_uses_time_component (row : Row) (anchor : PyDateTime)
    (m idx : Nat) (y mo d : Nat) (t : Time)
    (dinfo : Option (Nat × Nat × Nat)) (te : Time)
    (hd : weekday_map (strip_lower row.day) = some idx)
    (hs : to_datetime row.start = some ⟨some (y, mo, d), t⟩)
    (he : to_datetime row.end_ = some ⟨dinfo, te⟩) :
    to_datetime "2024-01-15" = some ⟨some (2024, 1, 15), ⟨0, 0⟩⟩ ∧
    create_calendar_from_df [row] anchor m = .ok
      [{ name := row.subject
         location := row.location
         description := row.notes
         beginDate := mondayOf anchor + (idx : Int)
         beginTime := t
         endDate := mondayOf anchor + (idx : Int)
         endTime := te
         alarms := [{ trigger := -(m : Int),
                      display_text := "Reminder: " ++ row.subject }] }] := by
  have hts : row_times row.start row.end_ = .ok (t, te) := by
    unfold row_times to_datetime_time
    rw [hs, he]
    simp
  exact ⟨by rfl, by simp [create_calendar_from_df, build_events,
    event_of_row_build _ _ hd hts]⟩

/-- Witness for C10: a bare ISO date start cell and a datetime end
cell. -/
theorem date_cell_uses_time_component_witness :
    to_datetime "2024-01-15" = some ⟨some (2024, 1, 15), ⟨0, 0⟩⟩ ∧
    create_calendar_from_df
        [⟨"monday", "2024-01-15", "2024-01-15 10:30", "Review", none, none⟩]
        ⟨19736, 0⟩ 30 = .ok
      [{ name := "Review"
         location := none
         description := none
         beginDate := mondayOf ⟨19736, 0⟩ + ((0 : Nat) : Int)
         beginTime := ⟨0, 0⟩
         endDate := mondayOf ⟨19736, 0⟩ + ((0 : Nat) : Int)
         endTime := ⟨10, 30⟩
         alarms := [{ trigger := -((30 : Nat) : Int),
                      display_text := "Reminder: " ++ "Review" }] }] :=
  date_cell_uses_time_component
    ⟨"monday", "2024-01-15", "2024-01-15 10:30", "Review", none, none⟩
    ⟨19736, 0⟩ 30 0 2024 1 15 ⟨0, 0⟩ (some (2024, 1, 15)) ⟨10, 30⟩
    (by rfl) (by rfl) (by rfl)

/-- C4: a header that, after trimming and lowercasing every column
name, contains all four required columns (in any order, case, or
padding) parses without a schema error, while a header lacking any of
them fails with the error naming a missing required column and showing
the expected header shape. -/
theorem schema_error_on_missing_column (columns : List String) :
    ((∀ col ∈ required_columns, col ∈ columns.map strip_lower) →
      parse_timetable_csv columns = .ok (columns.map strip_lower)) ∧
    ((∃ col ∈ required_columns, col ∉ columns.map strip_lower) →
      ∃ col, col ∈ required_columns ∧ col ∉ columns.map strip_lower ∧
        parse_timetable_csv columns
          = .error ("Missing required column: " ++ col ++ schema_hint)) := by
  constructor
  · intro hall
    simp only [parse_timetable_csv]
    have hnone : required_columns.find?
        (fun col => !(decide (col ∈ columns.map strip_lower))) = none := by
      rw [List.find?_eq_none]
      intro x hx
      simp only [Bool.not_eq_true, Bool.not_eq_false', decide_eq_true_eq]
      exact hall x hx
    rw [hnone]
  · rintro ⟨col, hcolmem, hcolnot⟩
    cases hfind : required_columns.find?
        (fun col => !(decide (col ∈ columns.map strip_lower))) with
    | none =>
      exfalso
      rw [List.find?_eq_none] at hfind
      have := hfind col hcolmem
      simp only [Bool.not_eq_true, Bool.not_eq_false', decide_eq_true_eq] at this
      exact hcolnot this
    | some c =>
      have hc1 : c ∈ required_columns := List.mem_of_find?_eq_some hfind
      have hc2 := List.find?_some hfind
      simp only [Bool.not_eq_true', decide_eq_false_iff_not] at hc2
      refine ⟨c, hc1, hc2, ?_⟩
      simp only [parse_timetable_csv]
      rw [hfind]

/-- Witness for C4: an uppercased padded header with all four columns
parses, and a header missing the end column fails naming it. -/
theorem schema_error_on_missing_column_witness :
    parse_timetable_csv [" Day ", "START", "End", "Subject", "Location"]
      = .ok (List.map strip_lower [" Day ", "START", "End", "Subject", "Location"]) ∧
    ∃ col, col ∈ required_columns ∧
      col ∉ List.map strip_lower ["Day", "Start", "Subject", "Notes"] ∧
      parse_timetable_csv ["Day", "Start", "Subject", "Notes"]
        = .error ("Missing required column: " ++ col ++ schema_hint) :=
  ⟨(schema_error_on_missing_column [" Day ", "START", "End", "Subject", "Location"]).1
      (by decide),
   (schema_error_on_missing_column ["Day", "Start", "Subject", "Notes"]).2
      ⟨"end", by decide, by decide⟩⟩

lemma build_events_abort {monday : Int} {m : Nat} {row : Row} {msg : String}
    (hrow : event_of_row monday m row = .error msg) :
    ∀ pre, (∀ r ∈ pre, (event_of_row monday m r).isOk = true) →
      ∀ post, build_events monday m (pre ++ row :: post) = .error msg := by
  intro pre
  induction pre with
  | nil =>
    intro _ post
    simp [build_events, hrow]
  | cons p ps ih =>
    intro hpre post
    have hp := hpre p (List.mem_cons_self _ _)
    cases hp2 : event_of_row monday m p with
    | error m2 => rw [hp2] at hp; simp [Except.isOk, Except.toBool] at hp
    | ok o =>
      cases o with
      | none =>
        simp only [List.cons_append, build_events, hp2]
        exact ih (fun r hr => hpre r (List.mem_cons_of_mem _ hr)) post
      | some ev =>
        simp [build_events, hp2,
          ih (fun r hr => hpre r (List.mem_cons_of_mem _ hr)) post]

/-- C3 counterexample: for the row (monday, 2:30PM, 25:99, Databases)
the end field 25:99 is the one failing both parses, yet the raised
error is the strict-parse complaint about the leftover PM of the start
field 2:30PM — a field the flexible parser had accepted — and the
message names neither the row nor the offending field. -/
theorem time_error_names_wrong_field :
    to_datetime_time "2:30PM" = some ⟨14, 30⟩ ∧
    to_datetime_time "25:99" = none ∧
    strptime_HM "25:99" = .error (no_match_msg "25:99") ∧
    create_calendar_from_df
        [⟨"monday", "2:30PM", "25:99", "Databases", none, none⟩] ⟨0, 0⟩ 30
      = .error "unconverted data remains: PM" :=
  ⟨rfl, rfl, rfl, rfl⟩

/-- C3 (amended): row time parsing tries the flexible parser on both
fields first and uses its results when both succeed; if either
flexible parse fails, both fields are reparsed with strict HH:MM and
the first strict failure becomes the error, which therefore can name
the text of the individually parseable field and never names the row.
09:00 and 9:00AM parse to the same 09:00 value, 25:99 fails both
parses, and a row whose parse fails aborts the whole build with that
error and no partial output. -/
theorem time_parse_fallback_and_abort
    (pre post : List Row) (row : Row) (anchor : PyDateTime) (m : Nat) (msg : String)
    (s e s2 e2 : String) (ts te : Time)
    (hpre : ∀ r ∈ pre, (event_of_row (mondayOf anchor) m r).isOk = true)
    (hrow : event_of_row (mondayOf anchor) m row = .error msg)
    (hs : to_datetime_time s = some ts) (he : to_datetime_time e = some te)
    (hfail : to_datetime_time s2 = none ∨ to_datetime_time e2 = none) :
    row_times s e = .ok (ts, te) ∧
    row_times s2 e2 = (match strptime_HM s2 with
      | .error m1 => .error m1
      | .ok a =>
        match strptime_HM e2 with
        | .error m2 => .error m2
        | .ok b => .ok (a, b)) ∧
    to_datetime_time "09:00" = some ⟨9, 0⟩ ∧
    to_datetime_time "9:00AM" = some ⟨9, 0⟩ ∧
    to_datetime_time "25:99" = none ∧
    (strptime_HM "25:99").isOk = false ∧
    create_calendar_from_df (pre ++ row :: post) anchor m = .error msg := by
  refine ⟨?_, ?_, rfl, rfl, rfl, rfl, ?_⟩
  · unfold row_times
    rw [hs, he]
  · rcases hfail with hf | hf
    · cases h2 : to_datetime_time e2 <;> simp [row_times, hf, h2]
    · cases h1 : to_datetime_time s2 <;> simp [row_times, h1, hf]
  · exact build_events_abort hrow pre hpre post

/-- Witness for C3 (amended) at concrete fields: 09:00 and 10:30 parse
flexibly, 09:00 with the unparseable 25:99 falls back to strict
parsing of both, and the one-row build aborts with the strict error
for 25:99. -/
theorem time_parse_fallback_and_abort_witness :
    row_times "09:00" "10:30" = .ok (⟨9, 0⟩, ⟨10, 30⟩) ∧
    row_times "09:00" "25:99" = (match strptime_HM "09:00" with
      | .error m1 => .error m1
      | .ok a =>
        match strptime_HM "25:99" with
        | .error m2 => .error m2
        | .ok b => .ok (a, b)) ∧
    to_datetime_time "09:00" = some ⟨9, 0⟩ ∧
    to_datetime_time "9:00AM" = some ⟨9, 0⟩ ∧
    to_datetime_time "25:99" = none ∧
    (strptime_HM "25:99").isOk = false ∧
    create_calendar_from_df
        [⟨"monday", "09:00", "25:99", "Maths", none, none⟩] ⟨0, 0⟩ 30
      = .error (no_match_msg "25:99") :=
  time_parse_fallback_and_abort [] []
    ⟨"monday", "09:00", "25:99", "Maths", none, none⟩ ⟨0, 0⟩ 30
    (no_match_msg "25:99") "09:00" "10:30" "09:00" "25:99" ⟨9, 0⟩ ⟨10, 30⟩
    (by simp) (by rfl) (by rfl) (by rfl) (Or.inr (by rfl))
